import Mathlib

/-!
Verification of the loglayout backend session engine.

This file embeds, in Lean, the parts of the backend that the checked
properties are about:

* `IndexingWorker` (backend/bridge.py): the line-offset table built over the
  memory-mapped file bytes;
* `PipelineWorker.run` (backend/bridge.py): the native (ripgrep) command
  chain, the logic-stage loop, and the `visible_indices` / `search_matches`
  accumulation;
* `FileBridge._start_pipeline` and `_on_pipeline_finished` (backend/bridge.py);
* `FileBridge.read_processed_lines` (backend/bridge.py);
* `SearchMixin` (backend/search_mixin.py): search-rank lookups, nearest
  next/prev, physical-to-visual conversion, bookmark toggle/clear;
* the built-in layers `FilterLayer`, `LevelLayer`, `ReplaceLayer`,
  `BookmarkLayer` (backend/loglayer/builtin/*.py).

Files are modelled as lists of byte values (`List Nat`) for indexing and as
lists of line strings for the pipeline.  External collaborators that are not
part of the repository (the ripgrep binary, the Python `re` and `bisect`
standard-library modules, Python dict attribute semantics) are modelled from
their documented contracts; each such definition carries a doc comment
saying so.
-/

namespace LogLayout

/-! ## String utilities (substring matching) -/

/-- Lower-case a character list (models Python case folding of `-i`). -/
def foldCase (cs : List Char) : List Char := cs.map Char.toLower

/-- Does `needle` occur as a contiguous sublist of `hay`? -/
def listHasSub (needle hay : List Char) : Bool :=
  hay.tails.any (fun t => needle.isPrefixOf t)

/-- Fixed-string containment test, optionally case-insensitive.  This is the
semantics of a ripgrep `-F` pattern (with `-i` folding case): the line
matches iff the pattern occurs as a substring. -/
def strHasSub (icase : Bool) (needle hay : String) : Bool :=
  if icase then listHasSub (foldCase needle.toList) (foldCase hay.toList)
  else listHasSub needle.toList hay.toList

/-- Word characters, as in the regex `\w` class (ASCII letters, digits, underscore). -/
def isWordChar (c : Char) : Bool := c.isAlphanum || c = '_'

/-- Whole-word containment: some occurrence of `needle` is not adjacent to a
word character on either side (ripgrep `-w` semantics for fixed patterns). -/
def listHasSubWW (needle hay : List Char) : Bool :=
  (List.range (hay.length + 1)).any (fun i =>
    needle.isPrefixOf (hay.drop i) &&
    (decide (i = 0) || !isWordChar (hay.getD (i - 1) ' ')) &&
    (decide (hay.length ≤ i + needle.length) || !isWordChar (hay.getD (i + needle.length) ' ')))

/-- Whole-word containment on strings, optionally case-insensitive. -/
def strHasSubWW (icase : Bool) (needle hay : String) : Bool :=
  if icase then listHasSubWW (foldCase needle.toList) (foldCase hay.toList)
  else listHasSubWW needle.toList hay.toList

/-- Modelled from the spec (section 4.2 Substring Engine; the ripgrep binary
itself is not part of src/): regex matching restricted to the patterns the
built-in layers actually emit.  The pattern `.*` matches every line (used by
the empty-levels `LevelLayer`); a bar-separated alternation of literal level
names matches iff some alternative occurs as a substring (used by the
non-empty `LevelLayer`, whose levels are plain escaped words). -/
def regexOccurs (icase : Bool) (pattern hay : String) : Bool :=
  if pattern = ".*" then true
  else (pattern.splitOn "|").any (fun w => strHasSub icase w hay)

/-! ## Search configuration and layers -/

/-- The search configuration dict `{query, regex, caseSensitive}` handed to
`PipelineWorker` (backend/bridge.py). -/
structure SearchConfig where
  query : String
  regex : Bool
  caseSensitive : Bool
deriving DecidableEq, Repr

/-- The built-in layer instances exercised by the claims
(backend/loglayer/builtin/{filter,level,replace}.py).  Field defaults mirror
the UI-schema defaults bound by `Component.__init__`
(backend/loglayer/ui.py): `SearchInput` defaults `regex=False`,
`caseSensitive=False`, `wholeWord=False`; `BoolInput("invert")` defaults
`False`. -/
inductive Layer where
  | filterL (query : String) (regex caseSensitive wholeWord invert : Bool)
  | level (levels : List String)
  | replaceL (find repl : String)
deriving DecidableEq, Repr

/-- Stage partition (backend/loglayer/core.py): `FilterLayer` and
`LevelLayer` extend `NativeProcessingLayer` (`stage = NATIVE`),
`ReplaceLayer` extends `PluginLayer = DataProcessingLayer` (`stage = LOGIC`). -/
def Layer.isNative : Layer → Bool
  | .filterL _ _ _ _ _ => true
  | .level _ => true
  | .replaceL _ _ => false

/-- `FilterLayer.get_rg_args` and `LevelLayer.get_rg_args`
(backend/loglayer/builtin/filter.py lines 16-31, level.py lines 15-19).
Logic layers have no native arguments. -/
def Layer.getRgArgs : Layer → List String
  | .filterL q rx cs ww inv =>
      if q = "" then []
      else
        let args := (if rx then ["-e"] else ["-F"]) ++
                    (if cs then [] else ["-i"]) ++
                    (if ww then ["-w"] else [])
        let args := if inv then "-v" :: args else args
        let args := if args.contains "-e" then args else args ++ ["-e"]
        args ++ [q]
  | .level levels =>
      if levels = [] then ["-v", ".*"]
      else ["-i", "-e", String.intercalate "|" levels]
  | .replaceL _ _ => []

/-- Modelled from the spec (section 4.2; the ripgrep binary is not in src/):
whether a first-stage ripgrep invocation with argument list `args` (pattern
last, as built by `get_rg_args` / the search `s_args`) keeps a line.  Flags:
`-v` inverts, `-i` folds case, `-F` is fixed-string, `-w` whole word; without
`-F` the pattern is a regex in the restricted dialect of `regexOccurs`.
The empty pattern (the match-all fallback stage) matches every line. -/
def rgKeep (args : List String) (line : String) : Bool :=
  let pattern := args.getLastD ""
  let icase := args.contains "-i"
  let fixed := args.contains "-F"
  let invert := args.contains "-v"
  let ww := args.contains "-w"
  let m :=
    if fixed then (if ww then strHasSubWW icase pattern line else strHasSub icase pattern line)
    else regexOccurs icase pattern line
  if invert then !m else m

/-- A piped (non-first) stage, as wrapped by `PipelineWorker.run`
(backend/bridge.py lines 183-196 and 199-212): the wrapper pattern
`^[(?i)][^:]*:.*P` applied to a `NUM:content` stream keeps the line iff `P`
occurs after the first colon, i.e. inside `content` (`NUM` has no colon).
`P` is the query escaped (`-F`) or verbatim (`-e`); the `-v` and `-w` flags
are dropped by the wrapper construction, exactly as in the source. -/
def pipedKeep (args : List String) (content : String) : Bool :=
  let query := args.getLastD ""
  let isRegex := args.contains "-e"
  let icase := args.contains "-i"
  if isRegex then regexOccurs icase query content else strHasSub icase query content

/-- The search argument list `s_args` built by `PipelineWorker.run`
(backend/bridge.py lines 157-163): `none` when there is no search config or
its query is empty (Python truthiness of `self.search.get('query')`). -/
def sArgs (sc : Option SearchConfig) : Option (List String) :=
  match sc with
  | none => none
  | some c =>
      if c.query = "" then none
      else some ((if c.regex then ["-e"] else ["-F"]) ++
                 (if c.caseSensitive then [] else ["-i"]) ++ [c.query])

/-- The native stages contributed by the native layers
(backend/bridge.py lines 173-196).  The enumeration index `i` decides
first-stage versus piped wrapping; a layer whose `get_rg_args` is empty is
skipped but still consumes its index, as in the Python `enumerate` loop. -/
def nativeStages (natives : List Layer) : List (String → Bool) :=
  natives.enum.filterMap (fun iw =>
    let args := iw.2.getRgArgs
    if args.isEmpty then none
    else some (if iw.1 = 0 then rgKeep args else pipedKeep args))

/-- The full command chain of `PipelineWorker.run` (backend/bridge.py lines
165-216), as a list of per-line predicates: match-all when there are no
native layers and no search; otherwise the native stages, with the search
appended as a final piped stage (or as the sole file-reading stage when the
chain is empty); match-all as the final fallback when every stage was
skipped. -/
def buildChain (layers : List Layer) (sc : Option SearchConfig) : List (String → Bool) :=
  let natives := layers.filter Layer.isNative
  match sArgs sc with
  | none =>
      if natives.isEmpty then [fun _ => true]
      else
        let c := nativeStages natives
        if c.isEmpty then [fun _ => true] else c
  | some a =>
      let c := nativeStages natives
      if c.isEmpty then [rgKeep a] else c ++ [pipedKeep a]

/-- The `NUM:content` lines that come out of the native chain, as
(0-based physical index, content) pairs: ripgrep emits 1-based line numbers
for the lines of the file that every stage keeps, and the worker parses
`physical_idx = int(parts[0]) - 1` (backend/bridge.py lines 244-255). -/
def nativeSurvivors (layers : List Layer) (sc : Option SearchConfig)
    (fileLines : List String) : List (Nat × String) :=
  fileLines.enum.filter (fun pc => (buildChain layers sc).all (fun p => p pc.2))

/-- Modelled from the Python `re` standard library (not part of src/),
restricted to the digit-run pattern `\d+` used by the claims: every maximal
run of decimal digits is replaced by `repl`.  Patterns outside this dialect
are left unapplied (the source's `except` branch likewise returns the
content unchanged on failure). -/
def subDigitRuns (repl : List Char) : List Char → List Char
  | [] => []
  | c :: rest =>
      if c.isDigit then repl ++ subDigitRuns repl (rest.dropWhile Char.isDigit)
      else c :: subDigitRuns repl rest
termination_by cs => cs.length
decreasing_by
  all_goals simp only [List.length_cons]
  · exact Nat.lt_succ_of_le ((List.dropWhile_sublist _).length_le)
  · exact Nat.lt_succ_self _

/-- Python `re.sub(find, repl, content)` in the modelled dialect. -/
def reSub (find repl content : String) : String :=
  if find = "\\d+" then String.mk (subDigitRuns repl.toList content.toList)
  else content

/-- `ReplaceLayer.process_line` (backend/loglayer/builtin/replace.py lines
17-28): empty `find` returns the content unchanged, otherwise a regex
substitution.  Native layers never have `process_line` called on them in the
logic loop. -/
def Layer.processLine : Layer → String → String
  | .replaceL find repl, content => if find = "" then content else reSub find repl content
  | _, content => content

/-- `filter_line` for the logic layers (backend/loglayer/core.py line 40):
`ReplaceLayer` inherits the base implementation, which keeps every line. -/
def Layer.filterLine : Layer → String → Nat → Bool
  | _, _, _ => true

/-- The per-line logic-stage loop of `PipelineWorker.run` (backend/bridge.py
lines 259-265): each logic layer first transforms the content, then its
filter is evaluated on the transformed content; a failing filter stops the
loop and hides the row. -/
def logicApply (logic : List Layer) (content : String) (idx : Nat) : String × Bool :=
  match logic with
  | [] => (content, true)
  | l :: ls =>
      let c := l.processLine content
      if l.filterLine c idx then logicApply ls c idx else (c, false)

/-- One step of the accumulation loop of `PipelineWorker.run`
(backend/bridge.py lines 257-273): state is
(visible_indices, search_matches, v_idx). -/
def pipelineStep (logic : List Layer) (hasQuery : Bool)
    (acc : List Nat × List Nat × Nat) (pc : Nat × String) : List Nat × List Nat × Nat :=
  if (logicApply logic pc.2 pc.1).2 then
    (acc.1 ++ [pc.1],
     (if hasQuery then acc.2.1 ++ [acc.2.2] else acc.2.1),
     acc.2.2 + 1)
  else acc

/-- `PipelineWorker.run` (backend/bridge.py lines 148-281): the emitted
`(visible_indices, search_matches)` pair.  Lines surviving the native chain
are streamed through the logic layers; surviving rows are appended to
`visible_indices`, and — because the search query was appended to the native
chain — every surviving row is appended to `search_matches` (by virtual
rank) whenever a search query is present. -/
def pipelineRun (layers : List Layer) (sc : Option SearchConfig)
    (fileLines : List String) : List Nat × List Nat :=
  let logic := layers.filter (fun l => !l.isNative)
  let hasQuery := (sArgs sc).isSome
  let r := (nativeSurvivors layers sc fileLines).foldl (pipelineStep logic hasQuery) ([], [], 0)
  (r.1, r.2.1)

/-! ## Session state and bridge-level sync -/

/-- One rendered row of `read_processed_lines` output
(backend/bridge.py line 833): `{index, content, highlights}`;
highlights are `(start, end)` spans. -/
structure Row where
  index : Nat
  content : String
  highlights : List (Nat × Nat)
deriving DecidableEq, Repr

/-- The per-file `LogSession` state relevant to the claims
(backend/bridge.py lines 460-477, plus the `rendering_instances` list the
mixin operates on and the tests provide).  `bookmarks` is the
`BookmarkLayer.bookmarks` dict of the session's bookmark rendering layer
(`line_index → comment`), or `none` when no bookmark layer exists;
`mmapClosed` models a mapping on which `len(...)` raises `ValueError`. -/
structure Session where
  mmapPresent : Bool
  mmapClosed : Bool
  data : List Nat
  size : Nat
  line_offsets : List Nat
  visible_indices : Option (List Nat)
  search_matches : Option (List Nat)
  layer_instances : List Layer
  search_config : Option SearchConfig
  cache : List (Nat × Row)
  bookmarks : Option (List (Nat × String))
deriving DecidableEq, Repr

/-- The visible count reported by `_on_pipeline_finished`, `toggle_bookmark`
and `clear_bookmarks`: `len(visible_indices)` when the table is present,
else `len(line_offsets)` (backend/bridge.py line 736,
backend/search_mixin.py lines 110, 197). -/
def visCount (s : Session) : Nat :=
  match s.visible_indices with
  | some v => v.length
  | none => s.line_offsets.length

/-- The match count reported alongside `visCount`
(backend/bridge.py line 737, backend/search_mixin.py lines 111, 198). -/
def matchCount (s : Session) : Nat :=
  match s.search_matches with
  | some m => m.length
  | none => 0

/-- `FileBridge._start_pipeline` followed by `_on_pipeline_finished`
(backend/bridge.py lines 676-711 and 724-741): with no layer instances and
no (non-empty) search query, the tables are reset to `None` and
`pipelineFinished(len(line_offsets), 0)` is emitted; otherwise the worker
runs and the session receives the emitted arrays (never `None`), with
`pipelineFinished(len(visible), len(matches))`.  The returned pair is the
emitted `(visibleCount, matchCount)` payload. -/
def startPipeline (s : Session) (layers : List Layer) (sc : Option SearchConfig)
    (fileLines : List String) : Session × (Nat × Nat) :=
  if layers.isEmpty ∧ (sArgs sc).isNone then
    ({ s with visible_indices := none, search_matches := none, cache := [],
              layer_instances := layers, search_config := sc },
     (s.line_offsets.length, 0))
  else
    let r := pipelineRun layers sc fileLines
    ({ s with visible_indices := some r.1, search_matches := some r.2, cache := [],
              layer_instances := layers, search_config := sc },
     (r.1.length, r.2.length))

/-! ## Line index (IndexingWorker) -/

/-- The newline offsets collected by `IndexingWorker._index_chunk` over the
whole mapping (backend/bridge.py lines 113-125): every position `p` holding
the LF byte 10 contributes `p + 1`, except when `p + 1` reaches the file
size.  The per-thread chunks partition `[0, size)` in increasing order, so
their concatenation equals this single scan. -/
def chunkOffsets (data : List Nat) : List Nat :=
  ((List.range data.length).filter
      (fun p => data.get? p == some 10 && decide (p + 1 < data.length))).map (· + 1)

/-- `IndexingWorker.run` plus the empty-file short-circuit of
`FileBridge.open_file` (backend/bridge.py lines 100-109 and 586-592):
an empty file yields an empty table; otherwise the table is `0` followed by
the chunk offsets, with a final offset `≥ size` popped. -/
def lineOffsets (data : List Nat) : List Nat :=
  if data.length = 0 then []
  else
    let total := 0 :: chunkOffsets data
    if 1 < total.length ∧ data.length ≤ total.getLastD 0 then total.dropLast else total

/-- The `lineCount` reported in the `fileLoaded` payload
(backend/bridge.py lines 589-591 and 620-624): the table length. -/
def reportedLineCount (data : List Nat) : Nat := (lineOffsets data).length

/-! ## Search mixin: bisect, rank lookups, physical-to-visual -/

/-- Modelled from the Python `bisect` standard-library documentation (the
module is not part of src/): on a sorted list, `bisect_left(a, x)` is the
number of elements `< x`. -/
def bisectLeft (a : List Nat) (x : Nat) : Nat := a.countP (fun y => decide (y < x))

/-- Modelled from the Python `bisect` standard-library documentation: on a
sorted list, `bisect_right(a, x)` is the number of elements `≤ x`. -/
def bisectRight (a : List Nat) (x : Nat) : Nat := a.countP (fun y => decide (y ≤ x))

/-- `SearchMixin.physical_to_visual_index` after the session lookup
(backend/search_mixin.py lines 203-224): identity when unfiltered; else
binary search, exact hit returns the found index, otherwise the preceding
index or 0. -/
def physicalToVisualIndex (visible : Option (List Nat)) (phys : Nat) : Nat :=
  match visible with
  | none => phys
  | some vis =>
      let vIdx := bisectLeft vis phys
      if vis.get? vIdx = some phys then vIdx
      else if 0 < vIdx then vIdx - 1 else 0

/-- `SearchMixin.get_search_match_index` after the session lookup
(backend/search_mixin.py lines 13-18): `-1` when absent, empty or out of
range, else the stored match position. -/
def getSearchMatchIndex (ms : Option (List Nat)) (rank : Int) : Int :=
  match ms with
  | none => -1
  | some m =>
      if m.length = 0 then -1
      else if rank < 0 ∨ (m.length : Int) ≤ rank then -1
      else ((m.getD rank.toNat 0 : Nat) : Int)

/-- `SearchMixin.get_nearest_search_rank` after the session lookup
(backend/search_mixin.py lines 20-49): `bisect_right`, then the next/prev
branch with equality skipping and wrap-around. -/
def getNearestSearchRank (ms : Option (List Nat)) (cur : Nat) (dir : String) : Int :=
  match ms with
  | none => -1
  | some m =>
      if m.length = 0 then -1
      else
        let rank := bisectRight m cur
        if dir = "next" then
          if rank < m.length then (rank : Int) else 0
        else
          if 1 ≤ rank then
            let target : Int :=
              if m.get? (rank - 1) = some cur then (rank : Int) - 2 else (rank : Int) - 1
            if 0 ≤ target then target else (m.length : Int) - 1
          else (m.length : Int) - 1

/-! ## Bookmark operations (SearchMixin + BookmarkLayer) -/

/-- The outcome of a mixin call: the session state when the call ends (or
when an exception escapes), the `pipelineFinished(visibleCount, matchCount)`
payload if one was emitted, and the returned bookmark list or the escaped
exception. -/
structure MixResult where
  session : Session
  emitted : Option (Nat × Nat)
  ret : Except String (List Nat)
deriving Repr

/-- Modelled from the Python language semantics (the `dict` builtin is not
part of src/): `dict` objects have no `remove` method, so the attribute
access raises `AttributeError`. -/
def pyDictRemove (_d : List (Nat × String)) (_k : Nat) :
    Except String (List (Nat × String)) :=
  .error "AttributeError: dict object has no attribute remove"

/-- Modelled from the Python language semantics: `dict` objects have no
`add` method, so the attribute access raises `AttributeError`. -/
def pyDictAdd (_d : List (Nat × String)) (_k : Nat) :
    Except String (List (Nat × String)) :=
  .error "AttributeError: dict object has no attribute add"

/-- `SearchMixin.toggle_bookmark` after the session lookup
(backend/search_mixin.py lines 59-114).  If no bookmark layer exists, one is
created from the config `{'bookmarks': []}`, whose `BookmarkLayer.__init__`
(backend/loglayer/builtin/bookmark.py lines 19-28) converts the list into an
empty dict.  The toggle itself calls the set methods `remove`/`add` on that
dict (lines 97-100), which raises `AttributeError`; the cache clear, the
`pipelineFinished` emission and the return (lines 108-114) are only reached
if the toggle succeeds. -/
def toggleBookmark (s : Session) (line : Nat) : MixResult :=
  let bl := s.bookmarks.getD []
  let s1 := { s with bookmarks := some bl }
  match (if (bl.lookup line).isSome then pyDictRemove bl line else pyDictAdd bl line) with
  | .error e => { session := s1, emitted := none, ret := .error e }
  | .ok bl2 =>
      let s2 := { s1 with bookmarks := some bl2, cache := [] }
      { session := s2, emitted := some (visCount s2, matchCount s2),
        ret := .ok ((bl2.map Prod.fst).mergeSort (· ≤ ·)) }

/-- `SearchMixin.clear_bookmarks` after the session lookup
(backend/search_mixin.py lines 178-201): empty the bookmark dict of the
bookmark layer if one exists (`dict.clear` does exist), clear the row cache,
emit `pipelineFinished` with the counts derived from the session's tables,
and return the empty list. -/
def clearBookmarks (s : Session) : MixResult :=
  let s1 :=
    match s.bookmarks with
    | some _ => { s with bookmarks := some [] }
    | none => s
  let s2 := { s1 with cache := [] }
  { session := s2, emitted := some (visCount s2, matchCount s2), ret := .ok [] }

/-! ## Windowed read (read_processed_lines) -/

/-- Lossy byte decoding (backend/bridge.py line 800), modelled for
single-byte code points: each byte becomes the character with that code. -/
def decodeBytes (bs : List Nat) : String := String.mk (bs.map Char.ofNat)

/-- Python `rstrip('\r\n')`. -/
def rstripCRLF (s : String) : String :=
  String.mk ((s.toList.reverse.dropWhile (fun c => c = '\r' || c = '\n')).reverse)

/-- The truncation sentinel bytes appended at line 799 of backend/bridge.py. -/
def truncBytes : List Nat := "... [truncated]".toList.map Char.toNat

/-- Truncation of overlong chunks (backend/bridge.py line 799). -/
def truncateChunk (chunk : List Nat) : List Nat :=
  if 10000 < chunk.length then chunk.take 10000 ++ truncBytes else chunk

/-- Non-overlapping leftmost occurrences of `needle` in `hay` starting at
position `i`, as `(start, end)` spans — the spans produced by Python
`re.finditer` for an escaped (fixed-string) pattern. -/
def findOccFrom (needle hay : List Char) (i : Nat) : List (Nat × Nat) :=
  if hay.length < i + 1 then []
  else if needle.isPrefixOf (hay.drop i) then
    (i, i + needle.length) :: findOccFrom needle hay (i + max needle.length 1)
  else findOccFrom needle hay (i + 1)
termination_by hay.length + 1 - i
decreasing_by
  · omega
  · omega

/-- The volatile search highlights of backend/bridge.py lines 819-831,
modelled for fixed-string (non-regex) queries; regex queries are outside the
modelled dialect and contribute no spans (no claim reads rows under a regex
search). -/
def searchHighlights (sc : Option SearchConfig) (content : String) : List (Nat × Nat) :=
  match sc with
  | none => []
  | some c =>
      if c.query = "" then []
      else if c.regex then []
      else if c.caseSensitive then findOccFrom c.query.toList content.toList 0
      else findOccFrom (foldCase c.query.toList) (foldCase content.toList) 0

/-- One iteration of the row loop of `read_processed_lines`
(backend/bridge.py lines 787-837), for a non-cached virtual row `i`.
`.ok none` models `continue` (an out-of-range index, caught as
`IndexError`); `.error` models the `AttributeError` raised at line 815 when
`layer.highlight_line` is called on a processing-layer instance (the
processing-layer classes in backend/loglayer/core.py define no
`highlight_line`, and no handler catches `AttributeError`); the modelled
instance set contains only processing layers. -/
def computeRow (s : Session) (i : Nat) : Except String (Option Row) :=
  let realIdx? :=
    match s.visible_indices with
    | some v => v.get? i
    | none => some i
  match realIdx? with
  | none => .ok none
  | some realIdx =>
      if s.line_offsets.length ≤ realIdx then .ok none
      else
        let startOff := s.line_offsets.getD realIdx 0
        let endOff :=
          match s.line_offsets.get? (realIdx + 1) with
          | some e => e
          | none => s.size
        let chunk := truncateChunk ((s.data.take endOff).drop startOff)
        let content0 := rstripCRLF (decodeBytes chunk)
        let logic := s.layer_instances.filter (fun l => !l.isNative)
        let content := logic.foldl (fun c l => l.processLine c) content0
        if s.layer_instances.isEmpty then
          .ok (some { index := realIdx, content := content,
                      highlights := searchHighlights s.search_config content })
        else .error "AttributeError: layer object has no attribute highlight_line"

/-- The row loop of `read_processed_lines` over the virtual indices `idxs`:
cache hits are returned as stored; computed rows are cached while the cache
is below 5000 entries (backend/bridge.py lines 787-837). -/
def readRows (s : Session) (idxs : List Nat) : Except String (List Row × Session) :=
  match idxs with
  | [] => .ok ([], s)
  | i :: rest =>
      match s.cache.lookup i with
      | some row =>
          match readRows s rest with
          | .error e => .error e
          | .ok (rows, s2) => .ok (row :: rows, s2)
      | none =>
          match computeRow s i with
          | .error e => .error e
          | .ok none => readRows s rest
          | .ok (some row) =>
              let s2 :=
                if s.cache.length < 5000 then { s with cache := s.cache ++ [(i, row)] }
                else s
              match readRows s2 rest with
              | .error e => .error e
              | .ok (rows, s3) => .ok (row :: rows, s3)

/-- Session-registry lookup (`self._sessions` keyed by `file_id`). -/
def lookupSession (sessions : List (String × Session)) (fid : String) : Option Session :=
  (sessions.find? (fun p => p.1 = fid)).map Prod.snd

/-- Store an updated session back under its id. -/
def updateSession (sessions : List (String × Session)) (fid : String) (s : Session) :
    List (String × Session) :=
  sessions.map (fun p => if p.1 = fid then (fid, s) else p)

/-- `FileBridge.read_processed_lines` (backend/bridge.py lines 765-843):
a missing session returns the empty list; an absent mmap returns the empty
list; a closed mmap makes the `len(session.mmap)` health probe raise
`ValueError`, which the outer handler turns into the empty list; a negative
start line returns the empty list.  Otherwise the row loop runs over
`range(start, min(start + count, total))`. -/
def readProcessedLines (sessions : List (String × Session)) (fid : String)
    (startLine : Int) (count : Nat) :
    Except String (List Row × List (String × Session)) :=
  match lookupSession sessions fid with
  | none => .ok ([], sessions)
  | some s =>
      if !s.mmapPresent then .ok ([], sessions)
      else if s.mmapClosed then .ok ([], sessions)
      else if startLine < 0 then .ok ([], sessions)
      else
        let start := startLine.toNat
        let total :=
          match s.visible_indices with
          | some v => v.length
          | none => s.line_offsets.length
        let endIdx := min (start + count) total
        match readRows s ((List.range endIdx).drop start) with
        | .error e => .error e
        | .ok (rows, s2) => .ok (rows, updateSession sessions fid s2)

/-! ## Shared concrete inputs -/

/-- A session fresh out of `open_file`/indexing: no tables, no layers, no
bookmark layer, healthy mmap. -/
def session0 : Session :=
  { mmapPresent := true, mmapClosed := false,
    data := [], size := 0, line_offsets := [],
    visible_indices := none, search_matches := none,
    layer_instances := [], search_config := none,
    cache := [], bookmarks := none }

/-- The file of end-to-end scenarios 1 and 2 of the spec. -/
def scenario1Lines : List String :=
  ["ERROR Database Timeout", "ERROR Database", "INFO Database",
   "ERROR Timeout", "ERROR Other"]

/-- The layer stack of scenario 3: a transform declared before a filter. -/
def c4Layers : List Layer :=
  [.replaceL "\\d+" "N", .filterL "foo N" false false false false]

/-- The input file of scenario 3. -/
def c4Lines : List String := ["foo 12", "bar 34", "foo baz"]

/-- A session whose mmap has been closed under it (the health probe
`len(session.mmap)` raises `ValueError`). -/
def closedSession : Session := { session0 with mmapClosed := true }

/-! ## Helper lemmas -/

lemma toggleBookmark_eq (s : Session) (line : Nat) :
    toggleBookmark s line =
      { session := { s with bookmarks := some (s.bookmarks.getD []) },
        emitted := none,
        ret := .error (if ((s.bookmarks.getD []).lookup line).isSome
                       then "AttributeError: dict object has no attribute remove"
                       else "AttributeError: dict object has no attribute add") } := by
  unfold toggleBookmark pyDictRemove pyDictAdd
  by_cases h : ((s.bookmarks.getD []).lookup line).isSome <;> simp [h]

lemma rgKeep_hide_all (x : String) : rgKeep ["-v", ".*"] x = false := rfl

lemma nativeSurvivors_level_nil (fileLines : List String) :
    nativeSurvivors [.level []] none fileLines = [] := by
  unfold nativeSurvivors
  apply List.filter_eq_nil_iff.mpr
  intro a _
  have hchain : buildChain [Layer.level []] none = [rgKeep ["-v", ".*"]] := rfl
  rw [hchain]
  simp [rgKeep_hide_all]

lemma mem_chunkOffsets {data : List Nat} {o : Nat} :
    o ∈ chunkOffsets data ↔
      ∃ p, data.get? p = some 10 ∧ o = p + 1 ∧ p + 1 < data.length := by
  unfold chunkOffsets
  simp only [List.mem_map, List.mem_filter, List.mem_range, Bool.and_eq_true,
    beq_iff_eq, decide_eq_true_eq]
  constructor
  · rintro ⟨p, ⟨_, h10, hlt⟩, rfl⟩
    exact ⟨p, h10, rfl, hlt⟩
  · rintro ⟨p, h10, rfl, hlt⟩
    have hp : p < data.length := by
      rcases List.get?_eq_some.mp h10 with ⟨h, _⟩
      exact h
    exact ⟨p, ⟨hp, h10, hlt⟩, rfl⟩

lemma chunkOffsets_pairwise (data : List Nat) :
    (chunkOffsets data).Pairwise (· < ·) := by
  unfold chunkOffsets
  refine List.pairwise_map.mpr ?_
  refine (List.Pairwise.filter _ (List.pairwise_lt_range _)).imp ?_
  intro a b h
  omega

lemma chunkOffsets_lt {data : List Nat} {o : Nat} (h : o ∈ chunkOffsets data) :
    o < data.length := by
  rcases mem_chunkOffsets.mp h with ⟨p, _, rfl, hlt⟩
  exact hlt

lemma chunkOffsets_pos {data : List Nat} {o : Nat} (h : o ∈ chunkOffsets data) :
    0 < o := by
  rcases mem_chunkOffsets.mp h with ⟨p, _, rfl, _⟩
  omega

lemma lineOffsets_eq (data : List Nat) :
    lineOffsets data = if data.length = 0 then [] else 0 :: chunkOffsets data := by
  unfold lineOffsets
  by_cases h0 : data.length = 0
  · simp [h0]
  · simp only [h0, if_false]
    have hcond : ¬ (1 < (0 :: chunkOffsets data).length ∧
        data.length ≤ (0 :: chunkOffsets data).getLastD 0) := by
      rintro ⟨hlen, hlast⟩
      rcases hc : chunkOffsets data with _ | ⟨b, t⟩
      · rw [hc] at hlen; simp at hlen
      · have hmem : (0 :: chunkOffsets data).getLastD 0 ∈ chunkOffsets data := by
          rw [hc]
          have : (0 :: b :: t).getLastD 0 = (b :: t).getLast (by simp) := by
            rw [List.getLastD_eq_getLast?, List.getLast?_eq_getLast _ (by simp)]
            rfl
          rw [this]
          exact List.getLast_mem _
        exact absurd hlast (by have := chunkOffsets_lt hmem; omega)
    rw [if_neg hcond]

lemma pairwise_get?_lt {m : List Nat} (hm : m.Pairwise (· < ·)) {i j yi yj : Nat}
    (hi : m.get? i = some yi) (hj : m.get? j = some yj) (hij : i < j) : yi < yj := by
  rcases List.get?_eq_some.mp hi with ⟨hi1, rfl⟩
  rcases List.get?_eq_some.mp hj with ⟨hj1, rfl⟩
  exact List.pairwise_iff_get.mp hm ⟨i, hi1⟩ ⟨j, hj1⟩ (Fin.mk_lt_mk.mpr hij)

lemma countP_downward {p : Nat → Bool}
    (hp : ∀ x y : Nat, x ≤ y → p y = true → p x = true) :
    ∀ {m : List Nat}, m.Pairwise (· < ·) →
      ∀ j y, m.get? j = some y → (p y = true ↔ j < m.countP p) := by
  intro m
  induction m with
  | nil =>
      intro _ j y h
      simp at h
  | cons a t ih =>
      intro hm j y hj
      rcases List.pairwise_cons.mp hm with ⟨ha, ht⟩
      by_cases hpa : p a = true
      · cases j with
        | zero =>
            rw [List.get?_cons_zero] at hj
            injection hj with hj
            subst hj
            simp [List.countP_cons, hpa]
        | succ j =>
            rw [List.get?_cons_succ] at hj
            have h2 := ih ht j y hj
            simp only [List.countP_cons, hpa, if_true]
            rw [h2]
            omega
      · have hta : ∀ b ∈ t, ¬ p b = true := by
          intro b hb hpb
          exact hpa (hp a b (Nat.le_of_lt (ha b hb)) hpb)
        have hct : t.countP p = 0 := List.countP_eq_zero.mpr hta
        cases j with
        | zero =>
            rw [List.get?_cons_zero] at hj
            injection hj with hj
            subst hj
            simp [List.countP_cons, hpa, hct]
        | succ j =>
            rw [List.get?_cons_succ] at hj
            have hyt : y ∈ t := List.get?_mem hj
            simp [List.countP_cons, hpa, hct, hta y hyt]

lemma le_downward (cur : Nat) :
    ∀ x y : Nat, x ≤ y → decide (y ≤ cur) = true → decide (x ≤ cur) = true := by
  intro x y hxy h
  simp only [decide_eq_true_eq] at *
  omega

lemma lt_downward (cur : Nat) :
    ∀ x y : Nat, x ≤ y → decide (y < cur) = true → decide (x < cur) = true := by
  intro x y hxy h
  simp only [decide_eq_true_eq] at *
  omega

lemma get?_of_lt_length {m : List Nat} {k : Nat} (h : k < m.length) :
    ∃ y, m.get? k = some y :=
  ⟨m.get ⟨k, h⟩, List.get?_eq_some.mpr ⟨h, rfl⟩⟩

/-- On a strictly increasing table, `bisect_left(vis, vis[r]) = r`. -/
lemma bisectLeft_get {m : List Nat} (hm : m.Pairwise (· < ·)) {r y : Nat}
    (h : m.get? r = some y) : bisectLeft m y = r := by
  unfold bisectLeft
  have hiff := countP_downward (lt_downward y) hm r y h
  have hub : m.countP (fun z => decide (z < y)) ≤ r := by
    by_contra hc
    have : decide (y < y) = true := hiff.mpr (by omega)
    simp at this
  rcases Nat.eq_zero_or_pos r with hr | hr
  · omega
  · have hrlen : r < m.length := (List.get?_eq_some.mp h).1
    obtain ⟨yp, hyp⟩ := get?_of_lt_length (m := m) (k := r - 1) (by omega)
    have hlt : yp < y := pairwise_get?_lt hm hyp h (by omega)
    have hlow := (countP_downward (lt_downward y) hm (r - 1) yp hyp).mp
      (by simpa using hlt)
    omega

/-- On a strictly increasing table, `bisect_right(m, m[r]) = r + 1`. -/
lemma bisectRight_get {m : List Nat} (hm : m.Pairwise (· < ·)) {r y : Nat}
    (h : m.get? r = some y) : bisectRight m y = r + 1 := by
  unfold bisectRight
  have hlen : r < m.length := (List.get?_eq_some.mp h).1
  have hlow := (countP_downward (le_downward y) hm r y h).mp (by simp)
  have hupper : m.countP (fun z => decide (z ≤ y)) ≤ r + 1 := by
    by_cases hk : r + 1 < m.length
    · obtain ⟨y2, hy2⟩ := get?_of_lt_length hk
      have hgt : y < y2 := pairwise_get?_lt hm h hy2 (by omega)
      have := (countP_downward (le_downward y) hm (r + 1) y2 hy2).not.mp
        (by simp; omega)
      omega
    · have := List.countP_le_length (l := m) (fun z => decide (z ≤ y))
      omega
  omega

/-- When `m[j] = y` is the largest element below `cur`, exactly `j + 1`
elements are below `cur`. -/
lemma countP_lt_eq_succ {m : List Nat} (hm : m.Pairwise (· < ·)) {j y cur : Nat}
    (hj : m.get? j = some y) (hy : y < cur)
    (hmax : ∀ y2 ∈ m, y2 < cur → y2 ≤ y) :
    m.countP (fun z => decide (z < cur)) = j + 1 := by
  have hlow := (countP_downward (lt_downward cur) hm j y hj).mp (by simpa using hy)
  have hup : m.countP (fun z => decide (z < cur)) ≤ j + 1 := by
    by_cases hk : j + 1 < m.length
    · obtain ⟨y2, hy2⟩ := get?_of_lt_length hk
      have hgt : y < y2 := pairwise_get?_lt hm hj hy2 (by omega)
      have h2 : ¬ (decide (y2 < cur) = true) := by
        simp only [decide_eq_true_eq]
        intro hlt2
        have := hmax y2 (List.get?_mem hy2) hlt2
        omega
      have := (countP_downward (lt_downward cur) hm (j + 1) y2 hy2).not.mp h2
      omega
    · have := List.countP_le_length (l := m) (fun z => decide (z < cur))
      omega
  omega

/-- When `m[j] = y` is the smallest element above `cur`, exactly `j`
elements are at most `cur`. -/
lemma countP_le_eq_idx {m : List Nat} (hm : m.Pairwise (· < ·)) {j y cur : Nat}
    (hj : m.get? j = some y) (hy : cur < y)
    (hmin : ∀ y2 ∈ m, cur < y2 → y ≤ y2) :
    m.countP (fun z => decide (z ≤ cur)) = j := by
  have hub : m.countP (fun z => decide (z ≤ cur)) ≤ j := by
    have := (countP_downward (le_downward cur) hm j y hj).not.mp
      (by simp only [decide_eq_true_eq]; omega)
    omega
  rcases Nat.eq_zero_or_pos j with hj0 | hj0
  · omega
  · have hjlen : j < m.length := (List.get?_eq_some.mp hj).1
    obtain ⟨yp, hyp⟩ := get?_of_lt_length (m := m) (k := j - 1) (by omega)
    have hlt : yp < y := pairwise_get?_lt hm hyp hj (by omega)
    have hyple : yp ≤ cur := by
      by_contra hc
      have := hmin yp (List.get?_mem hyp) (by omega)
      omega
    have hlow := (countP_downward (le_downward cur) hm (j - 1) yp hyp).mp
      (by simpa using hyple)
    omega

/-- When `cur` is not in the table, `bisect_right` and `bisect_left`
coincide. -/
lemma countP_le_eq_lt_of_not_mem {m : List Nat} {cur : Nat} (h : cur ∉ m) :
    m.countP (fun z => decide (z ≤ cur)) = m.countP (fun z => decide (z < cur)) :=
  List.countP_congr (fun a ha => by
    simp only [decide_eq_true_eq]
    have : a ≠ cur := fun hc => h (hc ▸ ha)
    omega)

lemma nearest_next_eq (m : List Nat) (cur : Nat) (h : m.length ≠ 0) :
    getNearestSearchRank (some m) cur "next" =
      if bisectRight m cur < m.length then ((bisectRight m cur : Nat) : Int) else 0 := by
  show (if m.length = 0 then (-1 : Int)
        else if bisectRight m cur < m.length then ((bisectRight m cur : Nat) : Int) else 0) =
      if bisectRight m cur < m.length then ((bisectRight m cur : Nat) : Int) else 0
  rw [if_neg h]

lemma nearest_prev_eq (m : List Nat) (cur : Nat) (h : m.length ≠ 0) :
    getNearestSearchRank (some m) cur "prev" =
      (if 1 ≤ bisectRight m cur then
        (if 0 ≤ (if m.get? (bisectRight m cur - 1) = some cur
                 then ((bisectRight m cur : Nat) : Int) - 2
                 else ((bisectRight m cur : Nat) : Int) - 1)
         then (if m.get? (bisectRight m cur - 1) = some cur
               then ((bisectRight m cur : Nat) : Int) - 2
               else ((bisectRight m cur : Nat) : Int) - 1)
         else (m.length : Int) - 1)
       else (m.length : Int) - 1) := by
  show (if m.length = 0 then (-1 : Int)
        else (if 1 ≤ bisectRight m cur then
          (if 0 ≤ (if m.get? (bisectRight m cur - 1) = some cur
                   then ((bisectRight m cur : Nat) : Int) - 2
                   else ((bisectRight m cur : Nat) : Int) - 1)
           then (if m.get? (bisectRight m cur - 1) = some cur
                 then ((bisectRight m cur : Nat) : Int) - 2
                 else ((bisectRight m cur : Nat) : Int) - 1)
           else (m.length : Int) - 1)
         else (m.length : Int) - 1)) = _
  rw [if_neg h]

/-! ## Claims -/

/-- Claim C3: the line-offset table of an opened file satisfies: an empty
file yields an empty table; for a non-empty file the first entry is 0; the
table is strictly increasing; no recorded offset reaches the file size; the
offsets are exactly 0 together with every newline position plus one (the
first byte of each line); and the reported line count equals the table
length. -/
theorem c3_line_offsets (data : List Nat) :
    (data = [] → lineOffsets data = []) ∧
    (data ≠ [] → (lineOffsets data).head? = some 0) ∧
    (lineOffsets data).Pairwise (· < ·) ∧
    (∀ o ∈ lineOffsets data, o < data.length) ∧
    (∀ o : Nat, o ∈ lineOffsets data ↔
        (data ≠ [] ∧ (o = 0 ∨ ∃ p, data.get? p = some 10 ∧ o = p + 1 ∧ o < data.length))) ∧
    reportedLineCount data = (lineOffsets data).length := by
  by_cases h0 : data.length = 0
  · have hdata : data = [] := List.length_eq_zero.mp h0
    have hoff : lineOffsets data = [] := by rw [lineOffsets_eq, if_pos h0]
    refine ⟨fun _ => hoff, fun h => absurd hdata h, ?_, ?_, ?_, rfl⟩
    · rw [hoff]; exact List.Pairwise.nil
    · intro o ho; rw [hoff] at ho; simp at ho
    · intro o
      rw [hoff]
      simp only [List.not_mem_nil, false_iff]
      rintro ⟨hne, _⟩
      exact hne hdata
  · have hoff : lineOffsets data = 0 :: chunkOffsets data := by
      rw [lineOffsets_eq, if_neg h0]
    have hdata : data ≠ [] := fun h => h0 (by rw [h]; rfl)
    refine ⟨fun h => absurd h hdata, fun _ => by rw [hoff]; rfl, ?_, ?_, ?_, rfl⟩
    · rw [hoff]
      exact List.pairwise_cons.mpr
        ⟨fun o ho => chunkOffsets_pos ho, chunkOffsets_pairwise data⟩
    · intro o ho
      rw [hoff] at ho
      rcases List.mem_cons.mp ho with h | h
      · subst h; omega
      · exact chunkOffsets_lt h
    · intro o
      rw [hoff]
      simp only [List.mem_cons, mem_chunkOffsets]
      constructor
      · rintro (rfl | ⟨p, h10, rfl, hlt⟩)
        · exact ⟨hdata, Or.inl rfl⟩
        · exact ⟨hdata, Or.inr ⟨p, h10, rfl, hlt⟩⟩
      · rintro ⟨_, rfl | ⟨p, h10, rfl, hlt⟩⟩
        · exact Or.inl rfl
        · exact Or.inr ⟨p, h10, rfl, hlt⟩

/-- Witness for C3: the bytes of `"ab\nc\n"` give the table `[0, 3]`
(the trailing newline offset 5 equals the size and is dropped). -/
theorem c3_line_offsets_witness :
    (lineOffsets [97, 98, 10, 99, 10]).head? = some 0 ∧
    lineOffsets [97, 98, 10, 99, 10] = [0, 3] :=
  ⟨(c3_line_offsets [97, 98, 10, 99, 10]).2.1 (by decide), by decide⟩

/-- Claim C5: `physical_to_visual_index` inverts the visibility mapping and
rounds down: with `visible_indices = None` it returns the physical index
unchanged; on a strictly increasing table it maps `visible_indices[v]` back
to `v`; and for a physical row not in the table it returns the virtual index
of the nearest preceding visible row, or 0 when no visible row precedes. -/
theorem c5_physical_to_visual (vis : List Nat) (phys v : Nat)
    (hm : vis.Pairwise (· < ·)) :
    (physicalToVisualIndex none phys = phys) ∧
    (∀ x, vis.get? v = some x → physicalToVisualIndex (some vis) x = v) ∧
    (phys ∉ vis → (∀ y ∈ vis, ¬ y < phys) →
        physicalToVisualIndex (some vis) phys = 0) ∧
    (phys ∉ vis → ∀ j y, vis.get? j = some y → y < phys →
        (∀ y2 ∈ vis, y2 < phys → y2 ≤ y) →
        physicalToVisualIndex (some vis) phys = j) := by
  refine ⟨rfl, ?_, ?_, ?_⟩
  · intro x hx
    show (if vis.get? (bisectLeft vis x) = some x then bisectLeft vis x
          else if 0 < bisectLeft vis x then bisectLeft vis x - 1 else 0) = v
    rw [bisectLeft_get hm hx, if_pos hx]
  · intro hmem hnone
    have hz : bisectLeft vis phys = 0 := by
      unfold bisectLeft
      exact List.countP_eq_zero.mpr (fun a ha => by
        simp only [decide_eq_true_eq]
        exact hnone a ha)
    show (if vis.get? (bisectLeft vis phys) = some phys then bisectLeft vis phys
          else if 0 < bisectLeft vis phys then bisectLeft vis phys - 1 else 0) = 0
    rw [hz, if_neg (fun hc => hmem (List.get?_mem hc))]
    simp
  · intro hmem j y hj hy hmax
    have hcount : bisectLeft vis phys = j + 1 := countP_lt_eq_succ hm hj hy hmax
    show (if vis.get? (bisectLeft vis phys) = some phys then bisectLeft vis phys
          else if 0 < bisectLeft vis phys then bisectLeft vis phys - 1 else 0) = j
    rw [hcount, if_neg (fun hc => hmem (List.get?_mem hc))]
    simp

/-- Witness for C5: on the table `[2, 5, 10, 15, 20]`, physical row 5 maps
to virtual 1 and the filtered-out physical row 6 rounds down to virtual 1. -/
theorem c5_physical_to_visual_witness :
    physicalToVisualIndex (some [2, 5, 10, 15, 20]) 5 = 1 ∧
    physicalToVisualIndex (some [2, 5, 10, 15, 20]) 6 = 1 :=
  ⟨(c5_physical_to_visual [2, 5, 10, 15, 20] 5 1 (by decide)).2.1 5 (by decide),
   (c5_physical_to_visual [2, 5, 10, 15, 20] 6 0 (by decide)).2.2.2
     (by decide) 1 5 (by decide) (by decide) (by decide)⟩

/-- Claim C6: on a non-empty strictly increasing `search_matches` table,
`get_nearest_search_rank` with `"next"` returns the rank of the smallest
match strictly greater than the current index, wrapping to 0 when none is
greater; with `"prev"` the rank of the largest match strictly less, wrapping
to the last rank; a current row equal to a match is skipped (strictness).
Consequently `nearest(match_index(r), "next") = (r + 1) mod M`, which
equals `r` iff `M = 1`. -/
theorem c6_nearest_search_rank (m : List Nat) (cur : Nat)
    (hm : m.Pairwise (· < ·)) (hne : m ≠ []) :
    (∀ j y, m.get? j = some y → cur < y → (∀ y2 ∈ m, cur < y2 → y ≤ y2) →
        getNearestSearchRank (some m) cur "next" = (j : Int)) ∧
    ((∀ y ∈ m, ¬ cur < y) → getNearestSearchRank (some m) cur "next" = 0) ∧
    (∀ j y, m.get? j = some y → y < cur → (∀ y2 ∈ m, y2 < cur → y2 ≤ y) →
        getNearestSearchRank (some m) cur "prev" = (j : Int)) ∧
    ((∀ y ∈ m, ¬ y < cur) →
        getNearestSearchRank (some m) cur "prev" = (m.length : Int) - 1) ∧
    (∀ r y, m.get? r = some y → getSearchMatchIndex (some m) (r : Int) = (y : Int)) ∧
    (∀ r y, m.get? r = some y →
        getNearestSearchRank (some m) y "next" = (((r + 1) % m.length : Nat) : Int) ∧
        ((r + 1) % m.length = r ↔ m.length = 1)) := by
  have hlen0 : m.length ≠ 0 := fun h => hne (List.length_eq_zero.mp h)
  refine ⟨?_, ?_, ?_, ?_, ?_, ?_⟩
  · -- next: smallest strictly greater
    intro j y hj hy hmin
    have hrank : bisectRight m cur = j := countP_le_eq_idx hm hj hy hmin
    have hjlen : j < m.length := (List.get?_eq_some.mp hj).1
    rw [nearest_next_eq m cur hlen0, hrank, if_pos hjlen]
  · -- next: wrap to 0
    intro hall
    have hrank : bisectRight m cur = m.length :=
      List.countP_eq_length.mpr (fun a ha => by
        simp only [decide_eq_true_eq]
        have := hall a ha
        omega)
    rw [nearest_next_eq m cur hlen0, hrank, if_neg (by omega)]
  · -- prev: largest strictly less
    intro j y hj hy hmax
    have hltc : m.countP (fun z => decide (z < cur)) = j + 1 :=
      countP_lt_eq_succ hm hj hy hmax
    rw [nearest_prev_eq m cur hlen0]
    by_cases hcur : cur ∈ m
    · obtain ⟨i, hi⟩ := List.get?_of_mem hcur
      have hrank : bisectRight m cur = i + 1 := bisectRight_get hm hi
      have hbl : bisectLeft m cur = i := bisectLeft_get hm hi
      have hij : i = j + 1 := by
        have : bisectLeft m cur = j + 1 := hltc
        omega
      rw [hrank]
      rw [if_pos (by omega)]
      have hskip : m.get? (i + 1 - 1) = some cur := by simpa using hi
      rw [if_pos hskip]
      rw [if_pos (show (0 : Int) ≤ ((i + 1 : Nat) : Int) - 2 by push_cast; omega)]
      push_cast
      omega
    · have hrank : bisectRight m cur = j + 1 := by
        unfold bisectRight
        rw [countP_le_eq_lt_of_not_mem hcur]
        exact hltc
      rw [hrank]
      rw [if_pos (by omega)]
      have hskip : ¬ m.get? (j + 1 - 1) = some cur := by
        simp only [Nat.add_sub_cancel, hj]
        intro hc
        injection hc with hc
        omega
      rw [if_neg hskip]
      rw [if_pos (show (0 : Int) ≤ ((j + 1 : Nat) : Int) - 1 by push_cast; omega)]
      push_cast
      omega
  · -- prev: wrap to the last rank
    intro hall
    rw [nearest_prev_eq m cur hlen0]
    by_cases hcur : cur ∈ m
    · obtain ⟨i, hi⟩ := List.get?_of_mem hcur
      have hrank : bisectRight m cur = i + 1 := bisectRight_get hm hi
      have hbl : bisectLeft m cur = i := bisectLeft_get hm hi
      have hi0 : i = 0 := by
        have : m.countP (fun z => decide (z < cur)) = 0 :=
          List.countP_eq_zero.mpr (fun a ha => by
            simp only [decide_eq_true_eq]
            exact hall a ha)
        have hbl2 : bisectLeft m cur = 0 := this
        rw [hbl] at hbl2
        exact hbl2
      subst hi0
      rw [hrank]
      rw [if_pos (by omega)]
      have hskip : m.get? (0 + 1 - 1) = some cur := by simpa using hi
      rw [if_pos hskip]
      rw [if_neg (show ¬ (0 : Int) ≤ ((0 + 1 : Nat) : Int) - 2 by decide)]
    · have hrank : bisectRight m cur = 0 := by
        unfold bisectRight
        rw [countP_le_eq_lt_of_not_mem hcur]
        exact List.countP_eq_zero.mpr (fun a ha => by
          simp only [decide_eq_true_eq]
          exact hall a ha)
      rw [hrank]
      rw [if_neg (by omega)]
  · -- match_index on a valid rank
    intro r y hr
    have hrlen : r < m.length := (List.get?_eq_some.mp hr).1
    show (if m.length = 0 then (-1 : Int)
          else if (r : Int) < 0 ∨ (m.length : Int) ≤ (r : Int) then (-1 : Int)
          else ((m.getD (r : Int).toNat 0 : Nat) : Int)) = (y : Int)
    rw [if_neg hlen0]
    rw [if_neg (by omega)]
    have : (r : Int).toNat = r := Int.toNat_natCast r
    rw [this]
    have hgetD : m.getD r 0 = y := by
      unfold List.getD
      rw [hr]
      rfl
    rw [hgetD]
  · -- composition with match_index
    intro r y hr
    have hrlen : r < m.length := (List.get?_eq_some.mp hr).1
    have hrank : bisectRight m y = r + 1 := bisectRight_get hm hr
    constructor
    · rw [nearest_next_eq m y hlen0, hrank]
      by_cases hk : r + 1 < m.length
      · rw [if_pos hk, Nat.mod_eq_of_lt hk]
      · have hEq : r + 1 = m.length := by omega
        rw [if_neg hk, hEq, Nat.mod_self]
        rfl
    · constructor
      · intro hmod
        by_cases hk : r + 1 < m.length
        · rw [Nat.mod_eq_of_lt hk] at hmod
          omega
        · have hEq : r + 1 = m.length := by omega
          rw [hEq, Nat.mod_self] at hmod
          omega
      · intro h1
        have : r = 0 := by omega
        subst this
        rw [h1]

/-- Witness for C6: on the table `[10, 20, 30, 40]`, from row 25 the next
match is rank 2, from row 40 prev skips the equal match down to rank 2, and
from match rank 1 the next match is rank `(1 + 1) % 4 = 2`. -/
theorem c6_nearest_search_rank_witness :
    getNearestSearchRank (some [10, 20, 30, 40]) 25 "next" = 2 ∧
    getNearestSearchRank (some [10, 20, 30, 40]) 40 "prev" = 2 ∧
    getNearestSearchRank (some [10, 20, 30, 40]) 20 "next" = 2 :=
  ⟨(c6_nearest_search_rank [10, 20, 30, 40] 25 (by decide) (by decide)).1
      2 30 (by decide) (by decide) (by decide),
   (c6_nearest_search_rank [10, 20, 30, 40] 40 (by decide) (by decide)).2.2.1
      2 30 (by decide) (by decide) (by decide),
   ((c6_nearest_search_rank [10, 20, 30, 40] 20 (by decide) (by decide)).2.2.2.2.2
      1 20 (by decide)).1⟩

/-- Claim C1: the spec (and the repository's own test
`tests/test_search_visibility.py`) require the search hit set to be computed
independently of visibility — layers `[FILTER("ERROR")]` with search
`"Timeout"` on the scenario-1 file should give
`visible_indices = [0,1,3,4]` and `search_matches = [0,2]`.  The code
instead appends the search query as a final filtering stage of the ripgrep
chain (`PipelineWorker.run`), so the pipeline yields
`visible_indices = [0,3]` and `search_matches = [0,1]`. -/
theorem c1_search_filters_visibility :
    (startPipeline session0 [Layer.filterL "ERROR" false false false false]
        (some ⟨"Timeout", false, false⟩) scenario1Lines).1.visible_indices = some [0, 3] ∧
    (startPipeline session0 [Layer.filterL "ERROR" false false false false]
        (some ⟨"Timeout", false, false⟩) scenario1Lines).1.search_matches = some [0, 1] := by
  constructor <;> rfl

/-- Claim C2: the spec (and the comment inside `_on_pipeline_finished`)
say that with zero processing layers and a search, `visible_indices` stays
`None` and `search_matches` holds the physical hit indices.  The worker
always emits an array, so on the scenario-1 file with search `"Database"`
the session ends with `visible_indices = some [0,1,2]` — not `None`. -/
theorem c2_search_only_visible_not_none :
    (startPipeline session0 [] (some ⟨"Database", false, false⟩)
        scenario1Lines).1.visible_indices = some [0, 1, 2] ∧
    (startPipeline session0 [] (some ⟨"Database", false, false⟩)
        scenario1Lines).1.visible_indices ≠ none ∧
    (startPipeline session0 [] (some ⟨"Database", false, false⟩)
        scenario1Lines).1.search_matches = some [0, 1, 2] := by
  refine ⟨rfl, ?_, rfl⟩
  intro h
  simp [startPipeline, sArgs] at h

/-- Claim C4 counterexample: with layers declared
`TRANSFORM(find="\d+", replace="N")` then `FILTER("foo N")` on
`["foo 12", "bar 34", "foo baz"]`, the claim expects
`visible_indices = [0]`; the pipeline partitions layers by stage and runs
the native `FILTER` on the untransformed file content first, where
`"foo N"` never occurs, so `visible_indices = []`. -/
theorem c4_counterexample :
    (startPipeline session0 c4Layers none c4Lines).1.visible_indices = some [] ∧
    (startPipeline session0 c4Layers none c4Lines).1.visible_indices ≠ some [0] := by
  refine ⟨rfl, ?_⟩
  intro h
  rw [show (startPipeline session0 c4Layers none c4Lines).1.visible_indices = some []
        from rfl] at h
  simp at h

/-- Claim C4 amended: with layers declared `TRANSFORM` then `FILTER` on the
scenario-3 input, the native filter stage runs before the logic transform,
so the pipeline yields `visible_indices = []` (and empty matches), and
reading row 0 back returns no rows (and no error). -/
theorem c4_amended_native_filter_first :
    (startPipeline session0 c4Layers none c4Lines).1.visible_indices = some [] ∧
    (startPipeline session0 c4Layers none c4Lines).1.search_matches = some [] ∧
    readProcessedLines [("f", (startPipeline session0 c4Layers none c4Lines).1)] "f" 0 1
      = .ok ([], [("f", (startPipeline session0 c4Layers none c4Lines).1)]) := by
  refine ⟨rfl, rfl, rfl⟩

/-- Claim C7: toggling a bookmark twice should be a no-op completing without
error (as the repository's own test `tests/unit/test_search_mixin.py` and
`BookmarkLayer.toggle` expect).  `SearchMixin.toggle_bookmark` instead calls
the set methods `add`/`remove` on `BookmarkLayer.bookmarks`, which is a
dict, so both the first and the second call raise `AttributeError` and no
call completes. -/
theorem c7_toggle_bookmark_raises :
    (toggleBookmark session0 50).ret
      = .error "AttributeError: dict object has no attribute add" ∧
    (toggleBookmark (toggleBookmark session0 50).session 50).ret
      = .error "AttributeError: dict object has no attribute add" := by
  constructor <;> rfl

/-- Claim C8: bookmark operations leave `visible_indices`,
`search_matches` and `line_offsets` unchanged; `clear_bookmarks` emits
`pipeline_finished` with exactly the counts derived from the unchanged
tables, but `toggle_bookmark` raises `AttributeError` (see C7) before its
emission is reached, so it emits nothing. -/
theorem c8_decoration_frame (s : Session) (line : Nat) :
    (clearBookmarks s).session.visible_indices = s.visible_indices ∧
    (clearBookmarks s).session.search_matches = s.search_matches ∧
    (clearBookmarks s).session.line_offsets = s.line_offsets ∧
    (clearBookmarks s).emitted = some (visCount s, matchCount s) ∧
    (toggleBookmark s line).session.visible_indices = s.visible_indices ∧
    (toggleBookmark s line).session.search_matches = s.search_matches ∧
    (toggleBookmark s line).session.line_offsets = s.line_offsets ∧
    (toggleBookmark s line).emitted = none := by
  rw [toggleBookmark_eq]
  unfold clearBookmarks visCount matchCount
  cases s.bookmarks <;> simp

/-- Claim C9: `read_processed_lines` returns the empty row list and leaves
the session registry unchanged whenever the file id has no session, the
session's mmap is absent or closed, or the requested start line is
negative; none of these conditions raises an error out of the call (the
result is `.ok`, never `.error`). -/
theorem c9_read_guards (sessions : List (String × Session)) (fid : String)
    (startLine : Int) (count : Nat) :
    (lookupSession sessions fid = none →
        readProcessedLines sessions fid startLine count = .ok ([], sessions)) ∧
    (∀ s, lookupSession sessions fid = some s → s.mmapPresent = false →
        readProcessedLines sessions fid startLine count = .ok ([], sessions)) ∧
    (∀ s, lookupSession sessions fid = some s → s.mmapClosed = true →
        readProcessedLines sessions fid startLine count = .ok ([], sessions)) ∧
    (∀ s, lookupSession sessions fid = some s → startLine < 0 →
        readProcessedLines sessions fid startLine count = .ok ([], sessions)) := by
  unfold readProcessedLines
  refine ⟨?_, ?_, ?_, ?_⟩
  · intro h
    rw [h]
  · intro s hs hmp
    rw [hs]
    simp [hmp]
  · intro s hs hmc
    rw [hs]
    by_cases hmp : s.mmapPresent <;> simp [hmp, hmc]
  · intro s hs hneg
    rw [hs]
    by_cases hmp : s.mmapPresent
    · by_cases hmc : s.mmapClosed <;> simp [hmp, hmc, hneg]
    · simp [hmp]

/-- Witness for C9: a closed-mmap session and a missing session both read
back as the empty row list with the registry unchanged. -/
theorem c9_read_guards_witness :
    readProcessedLines [("a", closedSession)] "a" 0 5
      = .ok ([], [("a", closedSession)]) ∧
    readProcessedLines [] "b" 0 5 = .ok ([], []) :=
  ⟨(c9_read_guards [("a", closedSession)] "a" 0 5).2.2.1 closedSession rfl rfl,
   (c9_read_guards [] "b" 0 5).1 rfl⟩

/-- Claim C10: a `LEVEL` layer with an empty selected-levels list compiles
to the inverted match-all arguments `["-v", ".*"]`, and the pipeline with it
as the only layer produces an empty (length-0, non-`None`) visibility table
on every input file. -/
theorem c10_empty_level_hides_all (s : Session) (fileLines : List String) :
    Layer.getRgArgs (.level []) = ["-v", ".*"] ∧
    (startPipeline s [.level []] none fileLines).1.visible_indices = some [] ∧
    (startPipeline s [.level []] none fileLines).1.search_matches = some [] := by
  refine ⟨rfl, ?_, ?_⟩ <;>
    simp [startPipeline, pipelineRun, sArgs, nativeSurvivors_level_nil]

end LogLayout
